import Mathlib

/-!
Verification development for the zoo-management schema and serialization
module (server/models.py): three entities (Zookeeper, Enclosure, Animal),
one-to-many relationships with the foreign key stored on Animal,
a constraint naming convention, and serialization exclusion rules that
break the mutual-reference cycles when an entity is rendered to JSON.

Rows are modelled as Lean structures mirroring the declared columns
(dates rendered as ISO strings, integer ids as Nat, nullable foreign keys
as Option Nat).  A database state is the three tables as lists of rows.
The serializer and the constraint-enforcing insert operations are external
to the source file (they live in the ORM layer); they are modelled from
the spec's contracts, while every column, rule and template they consume
is taken verbatim from the source.
-/

/-- JSON-like output values produced by serialization. -/
inductive JVal where
  | jnull : JVal
  | jnum (n : Nat) : JVal
  | jstr (s : String) : JVal
  | jbool (b : Bool) : JVal
  | jobj (fields : List (String × JVal)) : JVal
  | jarr (items : List JVal) : JVal

/-- Value stored under key k when the serialized value is an object. -/
def JVal.getKey : JVal → String → Option JVal
  | JVal.jobj fields, k => fields.lookup k
  | _, _ => none

/-- Keys of a serialized object (empty for non-objects). -/
def JVal.keys : JVal → List String
  | JVal.jobj fields => fields.map Prod.fst
  | _ => []

/-- Whether a serialized object carries the key k. -/
def JVal.hasKey (v : JVal) (k : String) : Bool :=
  (v.keys).contains k

/-- Nullable integer column rendered to JSON. -/
def jOptNum : Option Nat → JVal
  | none => JVal.jnull
  | some n => JVal.jnum n

/-- Row of the zookeepers table: id (primary key), name (unique), birthday. -/
structure Zookeeper where
  id : Nat
  name : String
  birthday : String

/-- Row of the enclosures table: id (primary key), environment, open_to_visitors. -/
structure Enclosure where
  id : Nat
  environment : String
  open_to_visitors : Bool

/-- Row of the animals table: id (primary key), name (unique), species, and
the two nullable foreign keys zookeeper_id and enclosure_id. -/
structure Animal where
  id : Nat
  name : String
  species : String
  zookeeper_id : Option Nat
  enclosure_id : Option Nat

/-- A database state: the three tables. -/
structure DB where
  zookeepers : List Zookeeper
  enclosures : List Enclosure
  animals : List Animal

/-- Source rule tuple serialize_rules = ('-animals.zookeeper',) on Zookeeper,
as a list of exclusion paths. -/
def Zookeeper.serialize_rules : List (List String) :=
  [["animals", "zookeeper"]]

/-- Source rule tuple serialize_rules = ('-animals.enclosure',) on Enclosure. -/
def Enclosure.serialize_rules : List (List String) :=
  [["animals", "enclosure"]]

/-- Source rule tuple serialize_rules = ('-zookeeper.animals', '-enclosure.animals')
on Animal. -/
def Animal.serialize_rules : List (List String) :=
  [["zookeeper", "animals"], ["enclosure", "animals"]]

/-- ORM navigation zookeeper.animals: the animals whose foreign key points at
the given zookeeper id (relationship with back_populates). -/
def DB.animalsOfZookeeper (db : DB) (i : Nat) : List Animal :=
  db.animals.filter (fun a => a.zookeeper_id == some i)

/-- ORM navigation enclosure.animals. -/
def DB.animalsOfEnclosure (db : DB) (i : Nat) : List Animal :=
  db.animals.filter (fun a => a.enclosure_id == some i)

/-- Resolve a zookeeper id to its row. -/
def DB.findZookeeper (db : DB) (i : Nat) : Option Zookeeper :=
  db.zookeepers.find? (fun z => z.id == i)

/-- Resolve an enclosure id to its row. -/
def DB.findEnclosure (db : DB) (i : Nat) : Option Enclosure :=
  db.enclosures.find? (fun e => e.id == i)

/-- ORM navigation animal.zookeeper: the row referenced by the nullable
foreign key, if any. -/
def DB.animalZookeeper (db : DB) (a : Animal) : Option Zookeeper :=
  a.zookeeper_id.bind (fun i => db.findZookeeper i)

/-- ORM navigation animal.enclosure. -/
def DB.animalEnclosure (db : DB) (a : Animal) : Option Enclosure :=
  a.enclosure_id.bind (fun i => db.findEnclosure i)

/-- A field f of the current node is excluded when the rule set holds the
one-step path f. -/
def excluded (rules : List (List String)) (f : String) : Bool :=
  rules.contains [f]

/-- Rules that apply inside the related object stored under key k: keep the
paths that start with k, with that first step removed (a one-step path k
excludes the relationship itself and contributes nothing below it). -/
def trimPaths (rules : List (List String)) (k : String) : List (List String) :=
  rules.filterMap (fun p =>
    match p with
    | [] => none
    | g :: rest =>
      if g = k then
        match rest with
        | [] => none
        | _ => some rest
      else none)

/-- Modelled from the spec: rule set in force inside a nested related object —
the ancestors' rules trimmed by the relationship key, merged with the nested
model's own declared serialize_rules (the serializer consults each visited
model's rules, which is what stops the Zookeeper-Animal-Zookeeper cycle). -/
def descend (rules : List (List String)) (k : String)
    (own : List (List String)) : List (List String) :=
  trimPaths rules k ++ own

/-- Column fields kept after applying the exclusion rules. -/
def keepCols (rules : List (List String)) (cols : List (String × JVal)) :
    List (String × JVal) :=
  cols.filter (fun kv => !(excluded rules kv.fst))

/-- Relationship field kept unless excluded. -/
def keepRel (rules : List (List String)) (k : String) (v : JVal) :
    List (String × JVal) :=
  if excluded rules k then [] else [(k, v)]

/-- Which model a serialized node belongs to. -/
inductive Row where
  | zook (z : Zookeeper) : Row
  | encl (e : Enclosure) : Row
  | anim (a : Animal) : Row

/-- Modelled from the spec: the serialize operation of §6 — every column is
emitted, every relationship is recursively serialized, and the exclusion
rules of §4.1 prune back-references.  Fuel bounds the recursion depth (the
serializer's recursion guard); with the declared rules depth three is never
exceeded, so the entry points below supply ample fuel. -/
def serializeAux (db : DB) : Nat → List (List String) → Row → JVal
  | 0, _, _ => JVal.jnull
  | fuel + 1, rules, Row.zook z =>
    JVal.jobj
      (keepCols rules
          [("id", JVal.jnum z.id), ("name", JVal.jstr z.name),
            ("birthday", JVal.jstr z.birthday)] ++
        keepRel rules "animals"
          (JVal.jarr ((db.animalsOfZookeeper z.id).map (fun a =>
            serializeAux db fuel
              (descend rules "animals" Animal.serialize_rules) (Row.anim a)))))
  | fuel + 1, rules, Row.encl e =>
    JVal.jobj
      (keepCols rules
          [("id", JVal.jnum e.id), ("environment", JVal.jstr e.environment),
            ("open_to_visitors", JVal.jbool e.open_to_visitors)] ++
        keepRel rules "animals"
          (JVal.jarr ((db.animalsOfEnclosure e.id).map (fun a =>
            serializeAux db fuel
              (descend rules "animals" Animal.serialize_rules) (Row.anim a)))))
  | fuel + 1, rules, Row.anim a =>
    JVal.jobj
      (keepCols rules
          [("id", JVal.jnum a.id), ("name", JVal.jstr a.name),
            ("species", JVal.jstr a.species),
            ("zookeeper_id", jOptNum a.zookeeper_id),
            ("enclosure_id", jOptNum a.enclosure_id)] ++
        keepRel rules "enclosure"
          (match db.animalEnclosure a with
            | none => JVal.jnull
            | some e =>
              serializeAux db fuel
                (descend rules "enclosure" Enclosure.serialize_rules)
                (Row.encl e)) ++
        keepRel rules "zookeeper"
          (match db.animalZookeeper a with
            | none => JVal.jnull
            | some z =>
              serializeAux db fuel
                (descend rules "zookeeper" Zookeeper.serialize_rules)
                (Row.zook z)))

/-- Serialization entry point for a Zookeeper instance (to_dict), under its
own declared serialize_rules. -/
def Zookeeper.to_dict (db : DB) (z : Zookeeper) : JVal :=
  serializeAux db 4 Zookeeper.serialize_rules (Row.zook z)

/-- Serialization entry point for an Enclosure instance. -/
def Enclosure.to_dict (db : DB) (e : Enclosure) : JVal :=
  serializeAux db 4 Enclosure.serialize_rules (Row.encl e)

/-- Serialization entry point for an Animal instance. -/
def Animal.to_dict (db : DB) (a : Animal) : JVal :=
  serializeAux db 4 Animal.serialize_rules (Row.anim a)

/-- An animal entry nested inside a serialized Zookeeper. -/
def animalUnderZook (db : DB) (a : Animal) : JVal :=
  serializeAux db 3 (descend Zookeeper.serialize_rules "animals" Animal.serialize_rules)
    (Row.anim a)

/-- An animal entry nested inside a serialized Enclosure. -/
def animalUnderEncl (db : DB) (a : Animal) : JVal :=
  serializeAux db 3 (descend Enclosure.serialize_rules "animals" Animal.serialize_rules)
    (Row.anim a)

/-- The zookeeper object nested inside a serialized Animal. -/
def zookUnderAnimal (db : DB) (z : Zookeeper) : JVal :=
  serializeAux db 3 (descend Animal.serialize_rules "zookeeper" Zookeeper.serialize_rules)
    (Row.zook z)

/-- The enclosure object nested inside a serialized Animal. -/
def enclUnderAnimal (db : DB) (e : Enclosure) : JVal :=
  serializeAux db 3 (descend Animal.serialize_rules "enclosure" Enclosure.serialize_rules)
    (Row.encl e)

/-- The five constraint kinds keyed in the convention dictionary of the
source: index, unique, check, foreign key, primary key. -/
inductive ConstraintKind where
  | ix : ConstraintKind
  | uq : ConstraintKind
  | ck : ConstraintKind
  | fk : ConstraintKind
  | pk : ConstraintKind

/-- Substitution variables appearing in the convention templates. -/
inductive TemplateVar where
  | table_name : TemplateVar
  | column_0_name : TemplateVar
  | column_0_label : TemplateVar
  | constraint_name : TemplateVar
  | referred_table_name : TemplateVar

/-- A template is a sequence of literal pieces and substitution variables. -/
inductive TemplatePiece where
  | lit (s : String) : TemplatePiece
  | var (v : TemplateVar) : TemplatePiece

/-- The convention dictionary, template by template, transcribed from the
source strings piece by piece. -/
def convention : ConstraintKind → List TemplatePiece
  | ConstraintKind.ix => [TemplatePiece.lit "ix_", TemplatePiece.var TemplateVar.column_0_label]
  | ConstraintKind.uq =>
    [TemplatePiece.lit "uq_", TemplatePiece.var TemplateVar.table_name,
      TemplatePiece.lit "_", TemplatePiece.var TemplateVar.column_0_name]
  | ConstraintKind.ck =>
    [TemplatePiece.lit "ck_", TemplatePiece.var TemplateVar.table_name,
      TemplatePiece.lit "_", TemplatePiece.var TemplateVar.constraint_name]
  | ConstraintKind.fk =>
    [TemplatePiece.lit "fk_", TemplatePiece.var TemplateVar.table_name,
      TemplatePiece.lit "_", TemplatePiece.var TemplateVar.column_0_name,
      TemplatePiece.lit "_", TemplatePiece.var TemplateVar.referred_table_name]
  | ConstraintKind.pk => [TemplatePiece.lit "pk_", TemplatePiece.var TemplateVar.table_name]

/-- A constraint-generation event: the table, column, constraint label and
referenced table whose names feed the templates. -/
structure NamingEvent where
  table : String
  column : String
  constraint_label : String
  referenced_table : String

/-- Modelled from the spec: the value each template variable takes at a
constraint-generation event (the substitution engine behind the percent
placeholders is outside the source file; per §4.1 and the source's own
comments, column_0_label stands for the column name, so ix yields
ix_ followed by the column). -/
def substVar (ev : NamingEvent) : TemplateVar → String
  | TemplateVar.table_name => ev.table
  | TemplateVar.column_0_name => ev.column
  | TemplateVar.column_0_label => ev.column
  | TemplateVar.constraint_name => ev.constraint_label
  | TemplateVar.referred_table_name => ev.referenced_table

/-- Render one template piece. -/
def substPiece (ev : NamingEvent) : TemplatePiece → String
  | TemplatePiece.lit s => s
  | TemplatePiece.var v => substVar ev v

/-- The constraint-naming function: substitute the event's names into the
template selected by the constraint kind. -/
def constraintName (k : ConstraintKind) (ev : NamingEvent) : String :=
  ((convention k).map (substPiece ev)).foldl (fun acc s => acc ++ s) ""

/-- Errors signalled by the persistence layer at write time (§7): duplicate
key and dangling foreign key. -/
inductive DBError where
  | uniqueViolation : DBError
  | fkViolation : DBError

/-- Whether candidate zookeeper z collides with stored row w on a
unique column (the primary key id, or name which is declared unique). -/
def dupZook (z : Zookeeper) (w : Zookeeper) : Bool :=
  w.id == z.id || w.name == z.name

/-- Whether candidate animal a collides with stored row b on a unique
column (id or name). -/
def dupAnimal (a : Animal) (b : Animal) : Bool :=
  b.id == a.id || b.name == a.name

/-- Whether the candidate animal's nullable zookeeper_id resolves (a null
foreign key always passes). -/
def fkOkZ (db : DB) (a : Animal) : Bool :=
  match a.zookeeper_id with
  | none => true
  | some i => db.zookeepers.any (fun z => z.id == i)

/-- Whether the candidate animal's nullable enclosure_id resolves. -/
def fkOkE (db : DB) (a : Animal) : Bool :=
  match a.enclosure_id with
  | none => true
  | some i => db.enclosures.any (fun e => e.id == i)

/-- Modelled from the spec: creating a Zookeeper through the persistence
layer — a duplicate on a unique column is rejected with a
uniqueness-violation error, otherwise the row is appended. -/
def insertZookeeper (db : DB) (z : Zookeeper) : Except DBError DB :=
  if db.zookeepers.any (dupZook z) then Except.error DBError.uniqueViolation
  else Except.ok { db with zookeepers := db.zookeepers ++ [z] }

/-- Modelled from the spec: creating an Enclosure — no column other than
the primary key carries a uniqueness constraint. -/
def insertEnclosure (db : DB) (e : Enclosure) : Except DBError DB :=
  if db.enclosures.any (fun f => f.id == e.id) then Except.error DBError.uniqueViolation
  else Except.ok { db with enclosures := db.enclosures ++ [e] }

/-- Modelled from the spec: creating an Animal — unique columns are checked,
then each non-null foreign key must reference an existing row, else a
referential-integrity error is raised. -/
def insertAnimal (db : DB) (a : Animal) : Except DBError DB :=
  if db.animals.any (dupAnimal a) then Except.error DBError.uniqueViolation
  else if fkOkZ db a && fkOkE db a then
    Except.ok { db with animals := db.animals ++ [a] }
  else Except.error DBError.fkViolation

/-- The stored state after attempting a Zookeeper creation: a failed
creation leaves the state unchanged. -/
def applyInsertZookeeper (db : DB) (z : Zookeeper) : DB :=
  match insertZookeeper db z with
  | Except.ok db2 => db2
  | Except.error _ => db

/-- The stored state after attempting an Animal creation. -/
def applyInsertAnimal (db : DB) (a : Animal) : DB :=
  match insertAnimal db a with
  | Except.ok db2 => db2
  | Except.error _ => db

/-- Database states reachable from the empty database through successful
creations. -/
inductive Reachable : DB → Prop where
  | empty : Reachable (DB.mk [] [] [])
  | stepZ {db db2 : DB} {z : Zookeeper} :
      Reachable db → insertZookeeper db z = Except.ok db2 → Reachable db2
  | stepE {db db2 : DB} {e : Enclosure} :
      Reachable db → insertEnclosure db e = Except.ok db2 → Reachable db2
  | stepA {db db2 : DB} {a : Animal} :
      Reachable db → insertAnimal db a = Except.ok db2 → Reachable db2

/-- The schema invariants of §3: unique ids everywhere, unique names on
zookeepers and animals, and referential integrity of both foreign keys. -/
def DBInv (db : DB) : Prop :=
  db.zookeepers.Pairwise (fun x y => x.id ≠ y.id ∧ x.name ≠ y.name) ∧
  db.enclosures.Pairwise (fun x y => x.id ≠ y.id) ∧
  db.animals.Pairwise (fun x y => x.id ≠ y.id ∧ x.name ≠ y.name) ∧
  (∀ a ∈ db.animals,
    (∀ i, a.zookeeper_id = some i → ∃ z ∈ db.zookeepers, z.id = i) ∧
    (∀ i, a.enclosure_id = some i → ∃ e ∈ db.enclosures, e.id = i))

/-- Scenario row: Zookeeper Alex. -/
def alex : Zookeeper := { id := 1, name := "Alex", birthday := "1990-01-01" }

/-- Scenario row: Enclosure Savanna. -/
def savanna : Enclosure := { id := 1, environment := "Savanna", open_to_visitors := true }

/-- Scenario row: Animal Leo the lion, kept by Alex in the savanna. -/
def leo : Animal :=
  { id := 1, name := "Leo", species := "Lion", zookeeper_id := some 1, enclosure_id := some 1 }

/-- Scenario database holding exactly Alex, Savanna and Leo. -/
def demoDB : DB := DB.mk [alex] [savanna] [leo]

theorem to_dict_zook_eq (db : DB) (z : Zookeeper) :
    Zookeeper.to_dict db z =
      JVal.jobj [("id", JVal.jnum z.id), ("name", JVal.jstr z.name),
        ("birthday", JVal.jstr z.birthday),
        ("animals", JVal.jarr ((db.animalsOfZookeeper z.id).map (animalUnderZook db)))] := rfl

theorem to_dict_encl_eq (db : DB) (e : Enclosure) :
    Enclosure.to_dict db e =
      JVal.jobj [("id", JVal.jnum e.id), ("environment", JVal.jstr e.environment),
        ("open_to_visitors", JVal.jbool e.open_to_visitors),
        ("animals", JVal.jarr ((db.animalsOfEnclosure e.id).map (animalUnderEncl db)))] := rfl

theorem to_dict_anim_eq (db : DB) (a : Animal) :
    Animal.to_dict db a =
      JVal.jobj [("id", JVal.jnum a.id), ("name", JVal.jstr a.name),
        ("species", JVal.jstr a.species), ("zookeeper_id", jOptNum a.zookeeper_id),
        ("enclosure_id", jOptNum a.enclosure_id),
        ("enclosure",
          match db.animalEnclosure a with
          | none => JVal.jnull
          | some e => enclUnderAnimal db e),
        ("zookeeper",
          match db.animalZookeeper a with
          | none => JVal.jnull
          | some z => zookUnderAnimal db z)] := rfl

theorem animalUnderZook_keys (db : DB) (a : Animal) :
    (animalUnderZook db a).keys =
      ["id", "name", "species", "zookeeper_id", "enclosure_id", "enclosure"] := rfl

theorem animalUnderEncl_keys (db : DB) (a : Animal) :
    (animalUnderEncl db a).keys =
      ["id", "name", "species", "zookeeper_id", "enclosure_id", "zookeeper"] := rfl

theorem zookUnderAnimal_keys (db : DB) (z : Zookeeper) :
    (zookUnderAnimal db z).keys = ["id", "name", "birthday"] := rfl

theorem enclUnderAnimal_keys (db : DB) (e : Enclosure) :
    (enclUnderAnimal db e).keys = ["id", "environment", "open_to_visitors"] := rfl

/-- C1: serializing a Zookeeper yields under the animals key exactly one
entry per related animal, and no entry carries a zookeeper field; the
enclosure side is symmetric, with no entry carrying an enclosure field. -/
theorem claim_C1_one_side_backref_exclusion (db : DB) (z : Zookeeper) (e : Enclosure) :
    (Zookeeper.to_dict db z).getKey "animals" =
        some (JVal.jarr ((db.animalsOfZookeeper z.id).map (animalUnderZook db))) ∧
    ((db.animalsOfZookeeper z.id).map (animalUnderZook db)).length =
        (db.animalsOfZookeeper z.id).length ∧
    ((db.animalsOfZookeeper z.id).map (animalUnderZook db)).all
        (fun v => !(v.hasKey "zookeeper")) = true ∧
    (Enclosure.to_dict db e).getKey "animals" =
        some (JVal.jarr ((db.animalsOfEnclosure e.id).map (animalUnderEncl db))) ∧
    ((db.animalsOfEnclosure e.id).map (animalUnderEncl db)).length =
        (db.animalsOfEnclosure e.id).length ∧
    ((db.animalsOfEnclosure e.id).map (animalUnderEncl db)).all
        (fun v => !(v.hasKey "enclosure")) = true := by
  refine ⟨rfl, List.length_map _ _, ?_, rfl, List.length_map _ _, ?_⟩
  · refine List.all_eq_true.mpr ?_
    intro v hv
    rcases List.mem_map.mp hv with ⟨a, _, rfl⟩
    rfl
  · refine List.all_eq_true.mpr ?_
    intro v hv
    rcases List.mem_map.mp hv with ⟨a, _, rfl⟩
    rfl

/-- C2: serializing an Animal whose zookeeper reference resolves yields a
nested zookeeper object with no animals field; likewise for the enclosure
reference. -/
theorem claim_C2_animal_nested_lacks_animals (db : DB) (a : Animal) :
    (∀ z, db.animalZookeeper a = some z →
      (Animal.to_dict db a).getKey "zookeeper" = some (zookUnderAnimal db z) ∧
      (zookUnderAnimal db z).hasKey "animals" = false) ∧
    (∀ e, db.animalEnclosure a = some e →
      (Animal.to_dict db a).getKey "enclosure" = some (enclUnderAnimal db e) ∧
      (enclUnderAnimal db e).hasKey "animals" = false) := by
  constructor
  · intro z hz
    rw [to_dict_anim_eq, hz]
    exact ⟨rfl, rfl⟩
  · intro e he
    rw [to_dict_anim_eq, he]
    exact ⟨rfl, rfl⟩

/-- C3: the constraint-naming function is a pure function of the event and
returns exactly the template-substituted strings of the convention table
for each of the five constraint kinds. -/
theorem claim_C3_naming_convention (ev : NamingEvent) :
    constraintName ConstraintKind.ix ev = "ix_" ++ ev.column ∧
    constraintName ConstraintKind.uq ev = "uq_" ++ ev.table ++ "_" ++ ev.column ∧
    constraintName ConstraintKind.ck ev = "ck_" ++ ev.table ++ "_" ++ ev.constraint_label ∧
    constraintName ConstraintKind.fk ev =
      "fk_" ++ ev.table ++ "_" ++ ev.column ++ "_" ++ ev.referenced_table ∧
    constraintName ConstraintKind.pk ev = "pk_" ++ ev.table := by
  refine ⟨?_, ?_, ?_, ?_, ?_⟩ <;> simp [constraintName, convention, substPiece, substVar]

theorem excluded_eq_false_of_deep {rules : List (List String)}
    (h : ∀ p ∈ rules, 2 ≤ p.length) (f : String) : excluded rules f = false := by
  cases hc : rules.contains [f] with
  | false => exact hc
  | true =>
    have hm : [f] ∈ rules := by simpa using hc
    have := h [f] hm
    simp at this

theorem dupZook_false_elim {l : List Zookeeper} {z : Zookeeper}
    (h : l.any (dupZook z) = false) :
    ∀ w ∈ l, w.id ≠ z.id ∧ w.name ≠ z.name := by
  intro w hw
  have h2 := List.any_eq_false.mp h w hw
  simpa [dupZook] using h2

theorem dupAnimal_false_elim {l : List Animal} {a : Animal}
    (h : l.any (dupAnimal a) = false) :
    ∀ b ∈ l, b.id ≠ a.id ∧ b.name ≠ a.name := by
  intro b hb
  have h2 := List.any_eq_false.mp h b hb
  simpa [dupAnimal] using h2

theorem dupEncl_false_elim {l : List Enclosure} {e : Enclosure}
    (h : l.any (fun f => f.id == e.id) = false) :
    ∀ f ∈ l, f.id ≠ e.id := by
  intro f hf
  have h2 := List.any_eq_false.mp h f hf
  simpa using h2

theorem insertZookeeper_ok {db db2 : DB} {z : Zookeeper}
    (h : insertZookeeper db z = Except.ok db2) :
    db.zookeepers.any (dupZook z) = false ∧
    db2 = { db with zookeepers := db.zookeepers ++ [z] } := by
  unfold insertZookeeper at h
  split at h
  · cases h
  · next hc => exact ⟨by simpa using hc, (Except.ok.inj h).symm⟩

theorem insertEnclosure_ok {db db2 : DB} {e : Enclosure}
    (h : insertEnclosure db e = Except.ok db2) :
    db.enclosures.any (fun f => f.id == e.id) = false ∧
    db2 = { db with enclosures := db.enclosures ++ [e] } := by
  unfold insertEnclosure at h
  split at h
  · cases h
  · next hc => exact ⟨by simpa using hc, (Except.ok.inj h).symm⟩

theorem insertAnimal_ok {db db2 : DB} {a : Animal}
    (h : insertAnimal db a = Except.ok db2) :
    db.animals.any (dupAnimal a) = false ∧ fkOkZ db a = true ∧ fkOkE db a = true ∧
    db2 = { db with animals := db.animals ++ [a] } := by
  unfold insertAnimal at h
  split at h
  · cases h
  · next hc1 =>
    split at h
    · next hc2 =>
      rw [Bool.and_eq_true] at hc2
      rcases hc2 with ⟨hz, he⟩
      exact ⟨by simpa using hc1, hz, he, (Except.ok.inj h).symm⟩
    · cases h

theorem reachable_inv {db : DB} (h : Reachable db) : DBInv db := by
  induction h with
  | empty =>
    refine ⟨List.Pairwise.nil, List.Pairwise.nil, List.Pairwise.nil, ?_⟩
    intro a ha
    cases ha
  | stepZ _ hok ih =>
    obtain ⟨hdup, rfl⟩ := insertZookeeper_ok hok
    obtain ⟨hz, he, ha, hfk⟩ := ih
    refine ⟨?_, he, ha, ?_⟩
    · rw [List.pairwise_append]
      refine ⟨hz, List.pairwise_singleton _ _, ?_⟩
      intro w hw z2 hz2
      rcases List.mem_singleton.mp hz2 with rfl
      exact dupZook_false_elim hdup w hw
    · intro b hb
      have h3 := hfk b hb
      refine ⟨?_, h3.2⟩
      intro i hi
      rcases h3.1 i hi with ⟨z2, hz2, hid⟩
      exact ⟨z2, List.mem_append_left _ hz2, hid⟩
  | stepE _ hok ih =>
    obtain ⟨hdup, rfl⟩ := insertEnclosure_ok hok
    obtain ⟨hz, he, ha, hfk⟩ := ih
    refine ⟨hz, ?_, ha, ?_⟩
    · rw [List.pairwise_append]
      refine ⟨he, List.pairwise_singleton _ _, ?_⟩
      intro f hf e2 he2
      rcases List.mem_singleton.mp he2 with rfl
      exact dupEncl_false_elim hdup f hf
    · intro b hb
      have h3 := hfk b hb
      refine ⟨h3.1, ?_⟩
      intro i hi
      rcases h3.2 i hi with ⟨e2, he2, hid⟩
      exact ⟨e2, List.mem_append_left _ he2, hid⟩
  | stepA _ hok ih =>
    obtain ⟨hdup, hfz, hfe, rfl⟩ := insertAnimal_ok hok
    obtain ⟨hz, he, ha, hfk⟩ := ih
    refine ⟨hz, he, ?_, ?_⟩
    · rw [List.pairwise_append]
      refine ⟨ha, List.pairwise_singleton _ _, ?_⟩
      intro b hb a2 ha2
      rcases List.mem_singleton.mp ha2 with rfl
      exact dupAnimal_false_elim hdup b hb
    · intro b hb
      rcases List.mem_append.mp hb with hb2 | hb2
      · exact hfk b hb2
      · rcases List.mem_singleton.mp hb2 with rfl
        constructor
        · intro i hi
          simp only [fkOkZ, hi] at hfz
          rcases List.any_eq_true.mp hfz with ⟨z2, hz2, hzid⟩
          exact ⟨z2, hz2, by simpa using hzid⟩
        · intro i hi
          simp only [fkOkE, hi] at hfe
          rcases List.any_eq_true.mp hfe with ⟨e2, he2, heid⟩
          exact ⟨e2, he2, by simpa using heid⟩

theorem find_of_pairwise_idsZ {l : List Zookeeper}
    (h : l.Pairwise (fun x y => x.id ≠ y.id)) {z : Zookeeper} (hm : z ∈ l) :
    l.find? (fun w => w.id == z.id) = some z := by
  induction l with
  | nil => cases hm
  | cons w t ih =>
    rcases List.mem_cons.mp hm with rfl | hm2
    · rw [List.find?_cons_of_pos _ (by simp)]
    · have hne : w.id ≠ z.id := (List.pairwise_cons.mp h).1 z hm2
      rw [List.find?_cons_of_neg _ (by simpa using hne)]
      exact ih (List.pairwise_cons.mp h).2 hm2

theorem find_of_pairwise_idsE {l : List Enclosure}
    (h : l.Pairwise (fun x y => x.id ≠ y.id)) {e : Enclosure} (hm : e ∈ l) :
    l.find? (fun f => f.id == e.id) = some e := by
  induction l with
  | nil => cases hm
  | cons f t ih =>
    rcases List.mem_cons.mp hm with rfl | hm2
    · rw [List.find?_cons_of_pos _ (by simp)]
    · have hne : f.id ≠ e.id := (List.pairwise_cons.mp h).1 e hm2
      rw [List.find?_cons_of_neg _ (by simpa using hne)]
      exact ih (List.pairwise_cons.mp h).2 hm2

theorem len_le_one_of_pairwise_ne {α : Type} (g : α → Nat) (o : Option Nat)
    {l : List α} (h : l.Pairwise (fun x y => g x ≠ g y)) :
    (l.filter (fun x => o == some (g x))).length ≤ 1 := by
  rcases hfl : l.filter (fun x => o == some (g x)) with _ | ⟨x, _ | ⟨y, t⟩⟩
  · simp
  · simp
  · exfalso
    have hpf := h.filter (fun x => o == some (g x))
    rw [hfl] at hpf
    have hxy : g x ≠ g y := (List.pairwise_cons.mp hpf).1 y (List.mem_cons_self _ _)
    have hx : (o == some (g x)) = true :=
      List.of_mem_filter (p := fun x => o == some (g x))
        (by rw [hfl]; exact List.mem_cons_self _ _)
    have hy : (o == some (g y)) = true :=
      List.of_mem_filter (p := fun x => o == some (g x))
        (by rw [hfl]; exact List.mem_cons.mpr (Or.inr (List.mem_cons_self _ _)))
    have hx2 : o = some (g x) := by simpa using hx
    have hy2 : o = some (g y) := by simpa using hy
    exact hxy (Option.some.inj (hx2.symm.trans hy2))

/-- C4: a two-step exclusion path removes nothing from the root object —
under any rule set whose paths all have at least two steps, the root
serialization of each model carries every one of its fields; in particular
a root-serialized Animal keeps its zookeeper and enclosure fields, and only
the animals lists nested inside those related objects are omitted. -/
theorem claim_C4_exclusion_only_when_nested :
    (∀ rules : List (List String), (∀ p ∈ rules, 2 ≤ p.length) →
      ∀ (db : DB) (fuel : Nat) (z : Zookeeper) (e : Enclosure) (a : Animal),
        (serializeAux db (fuel + 1) rules (Row.zook z)).keys =
          ["id", "name", "birthday", "animals"] ∧
        (serializeAux db (fuel + 1) rules (Row.encl e)).keys =
          ["id", "environment", "open_to_visitors", "animals"] ∧
        (serializeAux db (fuel + 1) rules (Row.anim a)).keys =
          ["id", "name", "species", "zookeeper_id", "enclosure_id",
            "enclosure", "zookeeper"]) ∧
    (∀ (db : DB) (a : Animal),
      (Animal.to_dict db a).hasKey "zookeeper" = true ∧
      (Animal.to_dict db a).hasKey "enclosure" = true ∧
      (∀ z, db.animalZookeeper a = some z →
        (zookUnderAnimal db z).hasKey "animals" = false) ∧
      (∀ e, db.animalEnclosure a = some e →
        (enclUnderAnimal db e).hasKey "animals" = false)) := by
  constructor
  · intro rules h db fuel z e a
    refine ⟨?_, ?_, ?_⟩ <;>
      simp [serializeAux, keepCols, keepRel, JVal.keys, excluded_eq_false_of_deep h]
  · intro db a
    exact ⟨rfl, rfl, fun z _ => rfl, fun e _ => rfl⟩

theorem claim_C4_witness :
    (serializeAux demoDB (3 + 1) Animal.serialize_rules (Row.anim leo)).keys =
      ["id", "name", "species", "zookeeper_id", "enclosure_id",
        "enclosure", "zookeeper"] ∧
    (Animal.to_dict demoDB leo).hasKey "zookeeper" = true ∧
    (zookUnderAnimal demoDB alex).hasKey "animals" = false := by
  refine ⟨?_, ?_, ?_⟩
  · exact ((claim_C4_exclusion_only_when_nested.1 Animal.serialize_rules (by decide)
      demoDB 3 alex savanna leo)).2.2
  · exact (claim_C4_exclusion_only_when_nested.2 demoDB leo).1
  · exact (claim_C4_exclusion_only_when_nested.2 demoDB leo).2.2.1 alex rfl

/-- C5 counterexample: in the Alex-Savanna-Leo scenario the single animal
entry nested in Alex's serialization holds the integer 1 under the id key
and the string Leo only under the name key, so the claimed shape, which
puts the string Leo under the id key, does not hold. -/
theorem claim_C5_counterexample :
    (Zookeeper.to_dict demoDB alex).getKey "animals" =
      some (JVal.jarr [animalUnderZook demoDB leo]) ∧
    (animalUnderZook demoDB leo).getKey "id" = some (JVal.jnum 1) ∧
    ¬ (animalUnderZook demoDB leo).getKey "id" = some (JVal.jstr "Leo") := by
  refine ⟨rfl, rfl, ?_⟩
  intro h
  have h2 : (animalUnderZook demoDB leo).getKey "id" = some (JVal.jnum 1) := rfl
  rw [h2] at h
  exact JVal.noConfusion (Option.some.inj h)

/-- C5 amended: serializing Alex yields keys id, name, birthday and animals,
the animals list has exactly the one entry for Leo, and that entry carries
name Leo, species Lion, enclosure_id, a nested enclosure object, and no
zookeeper key (the string Leo sits under name, while id holds the integer
row id). -/
theorem claim_C5_amended_scenario :
    (Zookeeper.to_dict demoDB alex).keys = ["id", "name", "birthday", "animals"] ∧
    (Zookeeper.to_dict demoDB alex).getKey "animals" =
      some (JVal.jarr [animalUnderZook demoDB leo]) ∧
    (animalUnderZook demoDB leo).getKey "name" = some (JVal.jstr "Leo") ∧
    (animalUnderZook demoDB leo).getKey "species" = some (JVal.jstr "Lion") ∧
    (animalUnderZook demoDB leo).getKey "enclosure_id" = some (JVal.jnum 1) ∧
    (animalUnderZook demoDB leo).getKey "enclosure" =
      some (JVal.jobj [("id", JVal.jnum 1), ("environment", JVal.jstr "Savanna"),
        ("open_to_visitors", JVal.jbool true)]) ∧
    (animalUnderZook demoDB leo).hasKey "zookeeper" = false :=
  ⟨rfl, rfl, rfl, rfl, rfl, rfl, rfl⟩

/-- C6: in every reachable state zookeeper names are pairwise distinct and
animal names are pairwise distinct, and creating a Zookeeper or an Animal
whose name is already used fails with a uniqueness violation, leaving the
stored state unchanged. -/
theorem claim_C6_unique_names (db : DB) (hre : Reachable db) :
    db.zookeepers.Pairwise (fun x y => x.name ≠ y.name) ∧
    db.animals.Pairwise (fun x y => x.name ≠ y.name) ∧
    (∀ (z w : Zookeeper), w ∈ db.zookeepers → w.name = z.name →
      insertZookeeper db z = Except.error DBError.uniqueViolation ∧
      applyInsertZookeeper db z = db) ∧
    (∀ (a b : Animal), b ∈ db.animals → b.name = a.name →
      insertAnimal db a = Except.error DBError.uniqueViolation ∧
      applyInsertAnimal db a = db) := by
  obtain ⟨hz, he, ha, hfk⟩ := reachable_inv hre
  refine ⟨hz.imp (fun hab => hab.2), ha.imp (fun hab => hab.2), ?_, ?_⟩
  · intro z w hw hname
    have hany : db.zookeepers.any (dupZook z) = true :=
      List.any_eq_true.mpr ⟨w, hw, by simp [dupZook, hname]⟩
    have herr : insertZookeeper db z = Except.error DBError.uniqueViolation := by
      unfold insertZookeeper
      rw [if_pos hany]
    refine ⟨herr, ?_⟩
    unfold applyInsertZookeeper
    rw [herr]
  · intro a b hb hname
    have hany : db.animals.any (dupAnimal a) = true :=
      List.any_eq_true.mpr ⟨b, hb, by simp [dupAnimal, hname]⟩
    have herr : insertAnimal db a = Except.error DBError.uniqueViolation := by
      unfold insertAnimal
      rw [if_pos hany]
    refine ⟨herr, ?_⟩
    unfold applyInsertAnimal
    rw [herr]

theorem claim_C6_witness :
    insertZookeeper (DB.mk [alex] [] []) (Zookeeper.mk 2 "Alex" "1985-05-05") =
      Except.error DBError.uniqueViolation ∧
    applyInsertZookeeper (DB.mk [alex] [] []) (Zookeeper.mk 2 "Alex" "1985-05-05") =
      DB.mk [alex] [] [] := by
  have hre : Reachable (DB.mk [alex] [] []) := Reachable.stepZ Reachable.empty rfl
  exact (claim_C6_unique_names (DB.mk [alex] [] []) hre).2.2.1
    (Zookeeper.mk 2 "Alex" "1985-05-05") alex (by simp) rfl

theorem demo_reachable : Reachable demoDB := by
  have h1 : Reachable (DB.mk [alex] [] []) := Reachable.stepZ Reachable.empty rfl
  have h2 : Reachable (DB.mk [alex] [savanna] []) := Reachable.stepE h1 rfl
  exact @Reachable.stepA (DB.mk [alex] [savanna] []) demoDB leo h2 rfl

/-- C7: creating an Animal whose set enclosure_id (or zookeeper_id) matches
no stored row fails with a referential-integrity error, and in every
reachable state every non-null foreign key of every animal references an
existing row. -/
theorem claim_C7_referential_integrity :
    (∀ (db : DB) (a : Animal) (i : Nat),
      db.animals.any (dupAnimal a) = false → a.enclosure_id = some i →
      db.enclosures.any (fun e => e.id == i) = false →
      insertAnimal db a = Except.error DBError.fkViolation) ∧
    (∀ (db : DB) (a : Animal) (i : Nat),
      db.animals.any (dupAnimal a) = false → a.zookeeper_id = some i →
      db.zookeepers.any (fun z => z.id == i) = false →
      insertAnimal db a = Except.error DBError.fkViolation) ∧
    (∀ db : DB, Reachable db → ∀ a ∈ db.animals,
      (∀ i, a.zookeeper_id = some i → ∃ z ∈ db.zookeepers, z.id = i) ∧
      (∀ i, a.enclosure_id = some i → ∃ e ∈ db.enclosures, e.id = i)) := by
  refine ⟨?_, ?_, ?_⟩
  · intro db a i hdup hid hno
    have hfe : fkOkE db a = false := by simp [fkOkE, hid, hno]
    unfold insertAnimal
    rw [if_neg (by simp [hdup]), if_neg (by simp [hfe])]
  · intro db a i hdup hid hno
    have hfz : fkOkZ db a = false := by simp [fkOkZ, hid, hno]
    unfold insertAnimal
    rw [if_neg (by simp [hdup]), if_neg (by simp [hfz])]
  · intro db hre
    exact (reachable_inv hre).2.2.2

theorem claim_C7_witness :
    insertAnimal (DB.mk [] [] []) (Animal.mk 1 "Leo" "Lion" none (some 5)) =
      Except.error DBError.fkViolation :=
  claim_C7_referential_integrity.1 (DB.mk [] [] [])
    (Animal.mk 1 "Leo" "Lion" none (some 5)) 5 rfl rfl rfl

/-- C8: in every reachable state the two one-to-many relationships are
mutually consistent — an animal sits in a zookeeper's animals list exactly
when the animal's zookeeper navigation yields that zookeeper, and the same
equivalence holds on the enclosure side (the foreign key itself being a
column of the Animal row only). -/
theorem claim_C8_bidirectional_consistency (db : DB) (hre : Reachable db) :
    (∀ z ∈ db.zookeepers, ∀ a ∈ db.animals,
      (a ∈ db.animalsOfZookeeper z.id ↔ db.animalZookeeper a = some z)) ∧
    (∀ e ∈ db.enclosures, ∀ a ∈ db.animals,
      (a ∈ db.animalsOfEnclosure e.id ↔ db.animalEnclosure a = some e)) := by
  obtain ⟨hz, he, ha, hfk⟩ := reachable_inv hre
  constructor
  · intro z hzm a ham
    constructor
    · intro hmem
      have h2 := List.mem_filter.mp hmem
      have h3 : a.zookeeper_id = some z.id := by simpa using h2.2
      unfold DB.animalZookeeper
      rw [h3]
      exact find_of_pairwise_idsZ (hz.imp (fun hab => hab.1)) hzm
    · intro hsome
      unfold DB.animalZookeeper at hsome
      rcases hop : a.zookeeper_id with _ | i
      · rw [hop] at hsome
        cases hsome
      · rw [hop] at hsome
        have hfind : db.zookeepers.find? (fun w => w.id == i) = some z := hsome
        have hzi : z.id = i := by simpa using List.find?_some hfind
        refine List.mem_filter.mpr ⟨ham, ?_⟩
        simp [hop, hzi]
  · intro e hem a ham
    constructor
    · intro hmem
      have h2 := List.mem_filter.mp hmem
      have h3 : a.enclosure_id = some e.id := by simpa using h2.2
      unfold DB.animalEnclosure
      rw [h3]
      exact find_of_pairwise_idsE he hem
    · intro hsome
      unfold DB.animalEnclosure at hsome
      rcases hop : a.enclosure_id with _ | i
      · rw [hop] at hsome
        cases hsome
      · rw [hop] at hsome
        have hfind : db.enclosures.find? (fun f => f.id == i) = some e := hsome
        have hei : e.id = i := by simpa using List.find?_some hfind
        refine List.mem_filter.mpr ⟨ham, ?_⟩
        simp [hop, hei]

theorem claim_C8_witness :
    (leo ∈ demoDB.animalsOfZookeeper alex.id ↔ demoDB.animalZookeeper leo = some alex) ∧
    (leo ∈ demoDB.animalsOfEnclosure savanna.id ↔
      demoDB.animalEnclosure leo = some savanna) :=
  ⟨(claim_C8_bidirectional_consistency demoDB demo_reachable).1 alex (by simp [demoDB])
      leo (by simp [demoDB]),
    (claim_C8_bidirectional_consistency demoDB demo_reachable).2 savanna (by simp [demoDB])
      leo (by simp [demoDB])⟩

/-- C9: both references of an Animal are optional — creation succeeds with
zookeeper_id null, with enclosure_id null, or with both null (given no
unique-column collision and a valid remaining reference) — and in every
reachable state an animal's reference matches at most one Zookeeper and at
most one Enclosure. -/
theorem claim_C9_optional_single_refs :
    (∀ (db : DB) (a : Animal), db.animals.any (dupAnimal a) = false →
      a.zookeeper_id = none → a.enclosure_id = none →
      insertAnimal db a = Except.ok { db with animals := db.animals ++ [a] }) ∧
    (∀ (db : DB) (a : Animal), db.animals.any (dupAnimal a) = false →
      a.zookeeper_id = none → fkOkE db a = true →
      insertAnimal db a = Except.ok { db with animals := db.animals ++ [a] }) ∧
    (∀ (db : DB) (a : Animal), db.animals.any (dupAnimal a) = false →
      a.enclosure_id = none → fkOkZ db a = true →
      insertAnimal db a = Except.ok { db with animals := db.animals ++ [a] }) ∧
    (∀ db : DB, Reachable db → ∀ a : Animal,
      (db.zookeepers.filter (fun z => a.zookeeper_id == some z.id)).length ≤ 1 ∧
      (db.enclosures.filter (fun e => a.enclosure_id == some e.id)).length ≤ 1) := by
  refine ⟨?_, ?_, ?_, ?_⟩
  · intro db a hdup hz0 he0
    have hfz : fkOkZ db a = true := by simp [fkOkZ, hz0]
    have hfe : fkOkE db a = true := by simp [fkOkE, he0]
    unfold insertAnimal
    rw [if_neg (by simp [hdup]), if_pos (by simp [hfz, hfe])]
  · intro db a hdup hz0 hfe
    have hfz : fkOkZ db a = true := by simp [fkOkZ, hz0]
    unfold insertAnimal
    rw [if_neg (by simp [hdup]), if_pos (by simp [hfz, hfe])]
  · intro db a hdup he0 hfz
    have hfe : fkOkE db a = true := by simp [fkOkE, he0]
    unfold insertAnimal
    rw [if_neg (by simp [hdup]), if_pos (by simp [hfz, hfe])]
  · intro db hre a
    obtain ⟨hz, he, ha, hfk⟩ := reachable_inv hre
    exact ⟨len_le_one_of_pairwise_ne Zookeeper.id a.zookeeper_id
        (hz.imp (fun hab => hab.1)),
      len_le_one_of_pairwise_ne Enclosure.id a.enclosure_id he⟩

theorem claim_C9_witness :
    insertAnimal (DB.mk [] [] []) (Animal.mk 7 "Free" "Cat" none none) =
      Except.ok (DB.mk [] [] [Animal.mk 7 "Free" "Cat" none none]) ∧
    (demoDB.zookeepers.filter (fun z => leo.zookeeper_id == some z.id)).length ≤ 1 := by
  constructor
  · exact claim_C9_optional_single_refs.1 (DB.mk [] [] [])
      (Animal.mk 7 "Free" "Cat" none none) rfl rfl rfl
  · exact (claim_C9_optional_single_refs.2.2.2 demoDB demo_reachable leo).1

/-- C10: no Enclosure column other than the primary key is unique — two
enclosures agreeing on environment and on open_to_visitors are both created
without a uniqueness violation. -/
theorem claim_C10_enclosure_no_unique_columns (db : DB) (e1 e2 : Enclosure)
    (h1 : db.enclosures.any (fun f => f.id == e1.id) = false)
    (h2 : db.enclosures.any (fun f => f.id == e2.id) = false)
    (hne : e2.id ≠ e1.id)
    (_henv : e1.environment = e2.environment)
    (_hopen : e1.open_to_visitors = e2.open_to_visitors) :
    insertEnclosure db e1 = Except.ok { db with enclosures := db.enclosures ++ [e1] } ∧
    insertEnclosure { db with enclosures := db.enclosures ++ [e1] } e2 =
      Except.ok { db with enclosures := (db.enclosures ++ [e1]) ++ [e2] } := by
  constructor
  · unfold insertEnclosure
    rw [if_neg (by simp [h1])]
  · unfold insertEnclosure
    have hall : (db.enclosures ++ [e1]).any (fun f => f.id == e2.id) = false := by
      rw [List.any_append]
      simp [h2, Ne.symm hne]
    rw [if_neg (by simp [hall])]

theorem claim_C10_witness :
    insertEnclosure (DB.mk [] [] []) savanna =
      Except.ok (DB.mk [] [savanna] []) ∧
    insertEnclosure (DB.mk [] [savanna] []) (Enclosure.mk 2 "Savanna" true) =
      Except.ok (DB.mk [] [savanna, Enclosure.mk 2 "Savanna" true] []) := by
  have h := claim_C10_enclosure_no_unique_columns (DB.mk [] [] []) savanna
    (Enclosure.mk 2 "Savanna" true) rfl rfl (by decide) rfl rfl
  exact h

theorem claim_C2_witness :
    (Animal.to_dict demoDB leo).getKey "zookeeper" = some (zookUnderAnimal demoDB alex) ∧
    (zookUnderAnimal demoDB alex).hasKey "animals" = false ∧
    (Animal.to_dict demoDB leo).getKey "enclosure" = some (enclUnderAnimal demoDB savanna) ∧
    (enclUnderAnimal demoDB savanna).hasKey "animals" = false := by
  have h := claim_C2_animal_nested_lacks_animals demoDB leo
  have h1 := h.1 alex rfl
  have h2 := h.2 savanna rfl
  exact ⟨h1.1, h1.2, h2.1, h2.2⟩
